import Mathlib

/-!
# real_dlsym: cached bootstrap of the real `dlsym`

Shallow embedding of `src/real_dlsym/main.c`.

* The global `__dlsym` is a pointer value (`Ptr`, `0` is `NULL`) passed in and out explicitly.
* `eh_find_obj`, `eh_find_sym`, `eh_destroy_obj` (declared in `elfhacks.h`) and the call through
  the cached function pointer are external: they are the fields of an `Env`, a deterministic
  state machine over an arbitrary world state `W`, so that theorems quantified over `Env`
  hold for every behaviour of the locator and resolver.
* Every external call, the `fprintf` to `stderr` and the `exit` are recorded, in program order,
  in a list of `Event`s.
-/

namespace RealDlsym

/-- A pointer value; `0` is `NULL`. -/
abbrev Ptr := Nat

/-- Modelled from the spec: `eh_obj_t` is declared in `elfhacks.h`, which is not part of the
sources; its fields follow the `LoadedObject` of the data model (base address, location of the
dynamic linking metadata, path reported by the loader). -/
structure eh_obj_t where
  base_address : Nat
  dynamic_section_pointer : Nat
  path : String
deriving DecidableEq, Repr, Inhabited

/-- Observable actions of the program, in program order. -/
inductive Event where
  /-- `eh_find_obj(&libdl, pattern)` returned `ret` and left `obj` in `libdl`. -/
  | find_obj (pattern : String) (ret : Int) (obj : eh_obj_t)
  /-- `eh_find_sym(&libdl, name, &__dlsym)` returned `ret` and left `out` in `__dlsym`. -/
  | find_sym (obj : eh_obj_t) (name : String) (ret : Int) (out : Ptr)
  /-- `eh_destroy_obj(&libdl)` returned `ret`. -/
  | destroy_obj (obj : eh_obj_t) (ret : Int)
  /-- `fprintf(stderr, text)`. -/
  | stderr (text : String)
  /-- `exit(status)`. -/
  | exit (status : Int)
  /-- `(__dlsym)(handle, symbol)` was called through the pointer `fn` and returned `result`. -/
  | invoke (fn : Ptr) (handle : Ptr) (symbol : String) (result : Ptr)
deriving DecidableEq, Repr

/-- The external functions. Each takes the current world state and returns its results together
with the next world state. `eh_find_sym` receives the current content of its output cell and
returns the content it leaves there (it may leave it untouched). The external functions touch
`__dlsym` only through the pointer handed to `eh_find_sym`. Return codes are C `int`s; the
program does no arithmetic on them, so they are kept as integers. -/
structure Env (W : Type) where
  eh_find_obj : W → String → Int × eh_obj_t × W
  eh_find_sym : W → eh_obj_t → String → Ptr → Int × Ptr × W
  eh_destroy_obj : W → eh_obj_t → Int × W
  call : W → Ptr → Ptr → String → Ptr × W

/-- The array `libs` of `get_dlsym`; the first entry is present on glibc builds only. -/
def libs (glibc : Bool) : List String :=
  (if glibc then ["*libdl.so*"] else []) ++ ["*libc.so*", "*libc.*.so*"]

/-- State at the end of the `for` loop of `get_dlsym`. -/
structure Locals (W : Type) where
  dlsym : Ptr
  ret : Int
  world : W
  events : List Event

/-- The `for` loop of `get_dlsym` over the remaining patterns, started with `__dlsym = d` and
the local `ret`. -/
def get_dlsym_loop {W : Type} (e : Env W) : List String → Ptr → Int → W → Locals W
  | [], d, ret, w => ⟨d, ret, w, []⟩
  | p :: ps, d, _, w =>
    let f := e.eh_find_obj w p
    if f.1 ≠ 0 then
      -- continue
      let r := get_dlsym_loop e ps d f.1 f.2.2
      { r with events := Event.find_obj p f.1 f.2.1 :: r.events }
    else
      let s := e.eh_find_sym f.2.2 f.2.1 "dlsym" d
      let x := e.eh_destroy_obj s.2.2 f.2.1
      if s.2.1 ≠ 0 then
        -- break
        ⟨s.2.1, f.1, x.2,
          [Event.find_obj p f.1 f.2.1, Event.find_sym f.2.1 "dlsym" s.1 s.2.1,
           Event.destroy_obj f.2.1 x.1]⟩
      else
        let r := get_dlsym_loop e ps 0 f.1 x.2
        { r with events :=
            Event.find_obj p f.1 f.2.1 :: Event.find_sym f.2.1 "dlsym" s.1 s.2.1 ::
              Event.destroy_obj f.2.1 x.1 :: r.events }

/-- Result of running a function of the program. -/
structure Outcome (W : Type) where
  /-- Content of `__dlsym` at the end. -/
  dlsym : Ptr
  world : W
  /-- What happened, in order. -/
  events : List Event
  /-- The argument of `exit` when the process was terminated, `none` when the function returned. -/
  exit : Option Int
  /-- The value returned (`real_dlsym` only). -/
  value : Option Ptr

/-- The line written to the standard error stream. -/
def diagnostic : String := "~~ Error : dlsym was not found ~~\n"

/-- The expression `ret ? ret : 1`. -/
def exit_arg (ret : Int) : Int := if ret ≠ 0 then ret else 1

/-- `get_dlsym()` started with `__dlsym = d`. The local `ret` is uninitialised in the source;
`libs` is never empty, so the first iteration assigns it before it is read
(`get_dlsym_loop_ret_irrelevant`). -/
def get_dlsym {W : Type} (e : Env W) (glibc : Bool) (d : Ptr) (w : W) : Outcome W :=
  let r := get_dlsym_loop e (libs glibc) d 0 w
  if r.dlsym = 0 then
    ⟨r.dlsym, r.world,
      r.events ++ [Event.stderr diagnostic, Event.exit (exit_arg r.ret)],
      some (exit_arg r.ret), none⟩
  else
    ⟨r.dlsym, r.world, r.events, none, none⟩

/-- `real_dlsym(handle, symbol)` started with `__dlsym = d`. -/
def real_dlsym {W : Type} (e : Env W) (glibc : Bool) (d : Ptr) (w : W)
    (handle : Ptr) (symbol : String) : Outcome W :=
  let g : Outcome W := if d = 0 then get_dlsym e glibc d w else ⟨d, w, [], none, none⟩
  match g.exit with
  | some _ => g
  | none =>
    let c := e.call g.world g.dlsym handle symbol
    ⟨g.dlsym, c.2, g.events ++ [Event.invoke g.dlsym handle symbol c.1], none, some c.1⟩

/-- The exit status a parent process observes for `exit(arg)`: the low eight bits of the
argument (`status & 0377`). -/
def exit_status (arg : Int) : Int := arg % 256

/-! ## Views of a trace -/

/-- The patterns passed to `eh_find_obj`, in call order. -/
def located : List Event → List String
  | [] => []
  | Event.find_obj p _ _ :: rest => p :: located rest
  | _ :: rest => located rest

/-- The address left by the first `eh_find_sym` call made before the next `eh_find_obj` call. -/
def resolved_addr : List Event → Option Ptr
  | [] => none
  | Event.find_obj _ _ _ :: _ => none
  | Event.find_sym _ _ _ out :: _ => some out
  | _ :: rest => resolved_addr rest

/-- What happened to one candidate pattern: the return code and handle of its `eh_find_obj`
call and the address its `eh_find_sym` call left (`none` when there was no such call). -/
structure Attempt where
  pattern : String
  ret : Int
  obj : eh_obj_t
  addr : Option Ptr
deriving DecidableEq, Repr

/-- The candidates tried, one per `eh_find_obj` call, in call order. -/
def attempts : List Event → List Attempt
  | [] => []
  | Event.find_obj p ret obj :: rest => ⟨p, ret, obj, resolved_addr rest⟩ :: attempts rest
  | _ :: rest => attempts rest

/-- A candidate failed: `eh_find_obj` returned non-zero or `eh_find_sym` left the address null. -/
def Attempt.failed (a : Attempt) : Prop := a.ret ≠ 0 ∨ a.addr = some 0

instance (a : Attempt) : Decidable a.failed := by
  unfold Attempt.failed; infer_instance

/-- The calls made through the cached pointer: function address, arguments and result. -/
def invocations : List Event → List (Ptr × Ptr × String × Ptr)
  | [] => []
  | Event.invoke fn h s r :: rest => (fn, h, s, r) :: invocations rest
  | _ :: rest => invocations rest

/-- Where the handle `libdl` stands in its lifecycle. -/
inductive Phase where
  /-- No live handle. -/
  | idle
  /-- `eh_find_obj` returned 0 and left this handle; `eh_find_sym` has not been called on it. -/
  | located (obj : eh_obj_t)
  /-- `eh_find_sym` has been called on the handle; it has not been released. -/
  | resolved (obj : eh_obj_t)
deriving DecidableEq, Repr

/-- Handle discipline of a trace, read from left to right: a successful `eh_find_obj` must be
followed at once by one `eh_find_sym` and then one `eh_destroy_obj` on the handle it left, a
failed `eh_find_obj` leaves no live handle, `eh_find_sym` and `eh_destroy_obj` occur nowhere
else, and the trace ends with no live handle. -/
def discipline : Phase → List Event → Bool
  | Phase.idle, [] => true
  | Phase.located _, [] => false
  | Phase.resolved _, [] => false
  | Phase.idle, Event.find_obj _ ret obj :: rest =>
    if ret = 0 then discipline (Phase.located obj) rest else discipline Phase.idle rest
  | Phase.located obj, Event.find_sym o _ _ _ :: rest =>
    decide (o = obj) && discipline (Phase.resolved obj) rest
  | Phase.resolved obj, Event.destroy_obj o _ :: rest =>
    decide (o = obj) && discipline Phase.idle rest
  | Phase.idle, Event.stderr _ :: rest => discipline Phase.idle rest
  | Phase.idle, Event.exit _ :: rest => discipline Phase.idle rest
  | Phase.idle, Event.invoke _ _ _ _ :: rest => discipline Phase.idle rest
  | _, _ => false

/-- An `eh_find_obj` call that returned 0. -/
def is_successful_locate : Event → Bool
  | Event.find_obj _ ret _ => decide (ret = 0)
  | _ => false

/-- An `eh_find_sym` call. -/
def is_resolve : Event → Bool
  | Event.find_sym _ _ _ _ => true
  | _ => false

/-- An `eh_destroy_obj` call. -/
def is_release : Event → Bool
  | Event.destroy_obj _ _ => true
  | _ => false

/-- A call to the locator or resolver, without its results. The handle argument is `&libdl` in
every call of the source. -/
inductive Call where
  | locate (pattern : String)
  | resolve (name : String)
  | release
deriving DecidableEq, Repr

/-- The sequence of locate, resolve and release calls of a trace. -/
def calls : List Event → List Call
  | [] => []
  | Event.find_obj p _ _ :: rest => Call.locate p :: calls rest
  | Event.find_sym _ n _ _ :: rest => Call.resolve n :: calls rest
  | Event.destroy_obj _ _ :: rest => Call.release :: calls rest
  | _ :: rest => calls rest

/-- For each `eh_find_obj` call, in order, whether it succeeded (returned 0). -/
def locate_ok : List Event → List Bool
  | [] => []
  | Event.find_obj _ ret _ :: rest => decide (ret = 0) :: locate_ok rest
  | _ :: rest => locate_ok rest

/-- For each `eh_find_sym` call, in order, the address it left in its output. -/
def addresses : List Event → List Ptr
  | [] => []
  | Event.find_sym _ _ _ out :: rest => out :: addresses rest
  | _ :: rest => addresses rest

/-- Two sequences of observations agree wherever both runs made the observation. -/
def agree {α : Type} (l1 l2 : List α) : Prop :=
  ∀ (k : Nat) (a b : α), l1[k]? = some a → l2[k]? = some b → a = b

/-- The texts written to the standard error stream, in order. -/
def stderr_text : List Event → List String
  | [] => []
  | Event.stderr t :: rest => t :: stderr_text rest
  | _ :: rest => stderr_text rest

/-- The return codes of the `eh_find_obj` calls, in order. -/
def locate_rets : List Event → List Int
  | [] => []
  | Event.find_obj _ ret _ :: rest => ret :: locate_rets rest
  | _ :: rest => locate_rets rest

/-- The observable diagnostics of a run: what was written to the standard error stream and the
exit status of the process, if it was terminated. -/
def diagnostics {W : Type} (r : Outcome W) : List String × Option Int :=
  (stderr_text r.events, r.exit.map exit_status)

/-- The pattern of a locate call. -/
def Call.pattern? : Call → Option String
  | Call.locate p => some p
  | _ => none

/-! ## The Symbol Resolver

`eh_find_sym` is defined by the elfhacks library, which is not part of the sources. What it
does inside is taken from section 4.2 of the specification. -/

/-- Modelled from the spec: an entry of a dynamic symbol table (the table layout is not in the
sources): the offset of the entry's name in the string table, the table-recorded value, and the
marker that the value is an absolute address, exempt from the bias adjustment. -/
structure SymEntry where
  name_offset : Nat
  value : Nat
  absolute : Bool
deriving DecidableEq, Repr

/-- Modelled from the spec: the memory image the resolver reads (nothing in the sources
describes it): which addresses are mapped, the dynamic symbol table reached through the
metadata at a `dynamic_section_pointer` (`none` for an object without one), the offset of the
string table relative to the base address, and the name stored at an address. -/
structure Image where
  mapped : Nat → Bool
  symtab : Nat → Option (List SymEntry)
  strtab : Nat → Nat
  name_at : Nat → String

/-- Modelled from the spec: the error taxonomy of `resolve` (section 7); the sources have no
such codes. -/
inductive ResolveError where
  | NotFound
  | Corrupt
deriving DecidableEq, Repr

/-- Modelled from the spec: where the name of an entry is read, through the string table,
relative to the base address (`eh_find_sym` is not in the sources). -/
def name_address (m : Image) (obj : eh_obj_t) (en : SymEntry) : Nat :=
  obj.base_address + m.strtab obj.dynamic_section_pointer + en.name_offset

/-- Modelled from the spec: the runtime address of an entry, `base_address + entry.value`
unless the absolute-address marker is set (`eh_find_sym` is not in the sources). -/
def symbol_address (obj : eh_obj_t) (en : SymEntry) : Nat :=
  if en.absolute then en.value else obj.base_address + en.value

/-- Modelled from the spec: an entry is well formed when its offsets point into mapped memory:
the name offset, and the value of an entry that is relative to the base (`eh_find_sym` is not
in the sources). -/
def well_formed (m : Image) (obj : eh_obj_t) (en : SymEntry) : Bool :=
  m.mapped (name_address m obj en) && (en.absolute || m.mapped (obj.base_address + en.value))

/-- Result of a resolve: the address or the error, and the addresses that were read. -/
structure Resolution where
  result : Except ResolveError Ptr
  reads : List Nat

/-- Modelled from the spec: the linear scan of `resolve` (`eh_find_sym` is not in the
sources): compare each entry's name, read through the string table, with `name`; the first
exact match gives the address; `NotFound` when no entry matches. -/
def scan (m : Image) (obj : eh_obj_t) (name : String) : List SymEntry → Resolution
  | [] => ⟨Except.error ResolveError.NotFound, []⟩
  | en :: rest =>
    if m.name_at (name_address m obj en) = name then
      ⟨Except.ok (symbol_address obj en), [name_address m obj en]⟩
    else
      ⟨(scan m obj name rest).result, name_address m obj en :: (scan m obj name rest).reads⟩

/-- Modelled from the spec: `resolve(obj, name)` (`eh_find_sym` is not in the sources). An
object without a dynamic symbol table yields `NotFound`; every offset is validated against the
mapping before anything is dereferenced, and malformed metadata is reported as `Corrupt`;
otherwise the table is scanned linearly. -/
def resolve (m : Image) (obj : eh_obj_t) (name : String) : Resolution :=
  match m.symtab obj.dynamic_section_pointer with
  | none => ⟨Except.error ResolveError.NotFound, []⟩
  | some tab =>
    if tab.all (well_formed m obj) then scan m obj name tab
    else ⟨Except.error ResolveError.Corrupt, []⟩

/-- Modelled from the spec: `eh_find_sym` (not in the sources) as the resolver over the image
`m`, in the calling convention of the source: on success it returns 0 and stores the address in
the output cell; on failure it returns the code of the error and either stores the null
sentinel (`clear`) or leaves the output cell as it was (the specification does not say which).
It changes nothing in the world. -/
def resolver_find_sym {W : Type} (m : Image) (code : ResolveError → Int) (clear : Bool)
    (w : W) (obj : eh_obj_t) (name : String) (d : Ptr) : Int × Ptr × W :=
  match (resolve m obj name).result with
  | Except.ok a => (0, a, w)
  | Except.error err => (code err, if clear then 0 else d, w)

/-- The environment `e` with `eh_find_sym` replaced by the resolver over the image `m`. -/
def with_resolver {W : Type} (e : Env W) (m : Image) (code : ResolveError → Int)
    (clear : Bool) : Env W :=
  { e with eh_find_sym := resolver_find_sym m code clear }

/-! ## Concrete processes -/

/-- A process in which only a library matching `*libc.so*` is loaded; it exports `dlsym`,
found at address 4096. Failures are reported with code 2. -/
def libc_only : Env Unit where
  eh_find_obj := fun _ p =>
    if p = "*libc.so*" then (0, ⟨1000, 2000, "/usr/lib/libc.so.6"⟩, ()) else (2, default, ())
  eh_find_sym := fun _ _ name d => if name = "dlsym" then (0, 4096, ()) else (2, d, ())
  eh_destroy_obj := fun _ _ => (0, ())
  call := fun _ fn handle _ => (fn + handle, ())

/-- A process in which every `eh_find_obj` call fails with the code `code`. -/
def nothing_loaded (code : Int) : Env Unit where
  eh_find_obj := fun _ _ => (code, default, ())
  eh_find_sym := fun _ _ _ d => (2, d, ())
  eh_destroy_obj := fun _ _ => (0, ())
  call := fun _ fn handle _ => (fn + handle, ())

/-- A process in which a library matching `*libc.so*` is loaded but does not export `dlsym`:
every resolve fails with the code `sym_code` and leaves its output untouched; every other
pattern fails to be located, with the code `obj_code`. -/
def no_dlsym (obj_code sym_code : Int) : Env Unit where
  eh_find_obj := fun _ p =>
    if p = "*libc.so*" then (0, ⟨1000, 2000, "/usr/lib/libc.so.6"⟩, ())
    else (obj_code, default, ())
  eh_find_sym := fun _ _ _ d => (sym_code, d, ())
  eh_destroy_obj := fun _ _ => (0, ())
  call := fun _ fn handle _ => (fn + handle, ())

/-- An image in which addresses 1000 to 4999 are mapped and the object whose metadata is at
2000 has a symbol table of one entry, with a name offset far beyond the mapping. -/
def malformed_image : Image where
  mapped := fun a => decide (1000 ≤ a) && decide (a < 5000)
  symtab := fun p => if p = 2000 then some [⟨9000, 64, false⟩] else none
  strtab := fun _ => 100
  name_at := fun _ => ""

/-- Return codes used in the examples: 2 for `NotFound`, 22 for `Corrupt`. -/
def example_code : ResolveError → Int
  | ResolveError.NotFound => 2
  | ResolveError.Corrupt => 22

/-! ## Basic facts about the loop -/

theorem located_eq_map_attempts (l : List Event) :
    located l = (attempts l).map Attempt.pattern := by
  induction l with
  | nil => rfl
  | cons ev l ih => cases ev <;> simp [located, attempts, ih]

/-- The loop started with an empty cache: either it ends with the cache still empty, every
pattern tried and failed, or it ends at the first candidate that yielded a non-null address. -/
theorem loop_shape {W : Type} (e : Env W) (ps : List String) :
    ∀ (ret : Int) (w : W),
      ((get_dlsym_loop e ps 0 ret w).dlsym = 0 ∧
        (attempts (get_dlsym_loop e ps 0 ret w).events).map Attempt.pattern = ps ∧
        ∀ a ∈ attempts (get_dlsym_loop e ps 0 ret w).events, a.failed) ∨
      ((get_dlsym_loop e ps 0 ret w).dlsym ≠ 0 ∧
        ∃ fs p obj rest,
          attempts (get_dlsym_loop e ps 0 ret w).events =
            fs ++ [⟨p, 0, obj, some (get_dlsym_loop e ps 0 ret w).dlsym⟩] ∧
          (∀ a ∈ fs, a.failed) ∧
          ps = (attempts (get_dlsym_loop e ps 0 ret w).events).map Attempt.pattern ++ rest) := by
  induction ps with
  | nil => intro ret w; left; simp [get_dlsym_loop, attempts]
  | cons p ps ih =>
    intro ret w
    by_cases hf : (e.eh_find_obj w p).1 = 0
    · by_cases hs : (e.eh_find_sym (e.eh_find_obj w p).2.2 (e.eh_find_obj w p).2.1 "dlsym" 0).2.1 = 0
      · rcases ih 0 (e.eh_destroy_obj (e.eh_find_sym (e.eh_find_obj w p).2.2
          (e.eh_find_obj w p).2.1 "dlsym" 0).2.2 (e.eh_find_obj w p).2.1).2 with h | h
        · left
          obtain ⟨h1, h2, h3⟩ := h
          simp only [get_dlsym_loop, hf, hs, ne_eq, not_true_eq_false, if_false, attempts,
            resolved_addr]
          refine ⟨h1, by simp [h2], ?_⟩
          intro a ha
          rcases List.mem_cons.1 ha with rfl | ha
          · right; rfl
          · exact h3 a ha
        · right
          obtain ⟨h1, fs, q, obj, rest, h2, h3, h4⟩ := h
          simp only [get_dlsym_loop, hf, hs, ne_eq, not_true_eq_false, if_false, attempts,
            resolved_addr]
          refine ⟨h1, ⟨p, 0, (e.eh_find_obj w p).2.1, some 0⟩ :: fs, q, obj, rest, ?_, ?_, ?_⟩
          · rw [h2]; simp [hf]
          · intro a ha
            rcases List.mem_cons.1 ha with rfl | ha
            · right; rfl
            · exact h3 a ha
          · simp only [List.map_cons, List.cons_append]
            exact congrArg _ h4
      · right
        simp only [get_dlsym_loop, hf, hs, ne_eq, not_true_eq_false, if_false, not_false_eq_true,
          if_true, attempts, resolved_addr]
        exact ⟨trivial, [], p, (e.eh_find_obj w p).2.1, ps, by simp, by simp, by simp⟩
    · rcases ih (e.eh_find_obj w p).1 (e.eh_find_obj w p).2.2 with h | h
      · left
        obtain ⟨h1, h2, h3⟩ := h
        simp only [get_dlsym_loop, hf, ne_eq, not_false_eq_true, if_true, attempts]
        refine ⟨h1, by simp [h2], ?_⟩
        intro a ha
        rcases List.mem_cons.1 ha with rfl | ha
        · left; exact hf
        · exact h3 a ha
      · right
        obtain ⟨h1, fs, q, obj, rest, h2, h3, h4⟩ := h
        simp only [get_dlsym_loop, hf, ne_eq, not_false_eq_true, if_true, attempts]
        refine ⟨h1, ⟨p, (e.eh_find_obj w p).1, (e.eh_find_obj w p).2.1,
          resolved_addr (get_dlsym_loop e ps 0 (e.eh_find_obj w p).1 (e.eh_find_obj w p).2.2).events⟩
            :: fs, q, obj, rest, ?_, ?_, ?_⟩
        · rw [h2]; simp
        · intro a ha
          rcases List.mem_cons.1 ha with rfl | ha
          · left; exact hf
          · exact h3 a ha
        · simp only [List.map_cons, List.cons_append]
          exact congrArg _ h4

theorem invocations_append (l1 l2 : List Event) :
    invocations (l1 ++ l2) = invocations l1 ++ invocations l2 := by
  induction l1 with
  | nil => rfl
  | cons ev l ih => cases ev <;> simp [invocations, ih]

theorem invocations_loop {W : Type} (e : Env W) (ps : List String) :
    ∀ (d : Ptr) (ret : Int) (w : W), invocations (get_dlsym_loop e ps d ret w).events = [] := by
  induction ps with
  | nil => intro d ret w; rfl
  | cons p ps ih =>
    intro d ret w
    simp only [get_dlsym_loop]
    split
    · simp [invocations, ih]
    · split <;> simp [invocations, ih]

theorem invocations_get_dlsym {W : Type} (e : Env W) (glibc : Bool) (d : Ptr) (w : W) :
    invocations (get_dlsym e glibc d w).events = [] := by
  unfold get_dlsym
  simp only []
  split <;> simp [invocations_append, invocations_loop, invocations]

theorem get_dlsym_exit_none_iff {W : Type} (e : Env W) (glibc : Bool) (d : Ptr) (w : W) :
    (get_dlsym e glibc d w).exit = none ↔ (get_dlsym e glibc d w).dlsym ≠ 0 := by
  unfold get_dlsym
  simp only []
  split <;> simp [*]

theorem get_dlsym_dlsym {W : Type} (e : Env W) (glibc : Bool) (d : Ptr) (w : W) :
    (get_dlsym e glibc d w).dlsym = (get_dlsym_loop e (libs glibc) d 0 w).dlsym := by
  unfold get_dlsym
  simp only []
  split <;> rfl

/-- What `real_dlsym` does once the cache is known to be non-empty after the optional
bootstrap. -/
theorem real_dlsym_of_returns {W : Type} (e : Env W) (glibc : Bool) (d : Ptr) (w : W)
    (handle : Ptr) (symbol : String) (g : Outcome W)
    (hg : g = if d = 0 then get_dlsym e glibc d w else ⟨d, w, [], none, none⟩)
    (hx : g.exit = none) :
    real_dlsym e glibc d w handle symbol =
      ⟨g.dlsym, (e.call g.world g.dlsym handle symbol).2,
        g.events ++ [Event.invoke g.dlsym handle symbol (e.call g.world g.dlsym handle symbol).1],
        none, some (e.call g.world g.dlsym handle symbol).1⟩ := by
  unfold real_dlsym
  simp only [← hg]
  split
  · next h => rw [hx] at h; cases h
  · rfl

theorem real_dlsym_nonempty {W : Type} (e : Env W) (glibc : Bool) (d : Ptr) (w : W)
    (handle : Ptr) (symbol : String) (hd : d ≠ 0) :
    real_dlsym e glibc d w handle symbol =
      ⟨d, (e.call w d handle symbol).2, [Event.invoke d handle symbol (e.call w d handle symbol).1],
        none, some (e.call w d handle symbol).1⟩ := by
  rw [real_dlsym_of_returns e glibc d w handle symbol ⟨d, w, [], none, none⟩ (by simp [hd]) rfl]
  simp

theorem real_dlsym_empty_returns {W : Type} (e : Env W) (glibc : Bool) (w : W)
    (handle : Ptr) (symbol : String) (hx : (real_dlsym e glibc 0 w handle symbol).exit = none) :
    (get_dlsym e glibc 0 w).exit = none := by
  unfold real_dlsym at hx
  simp only [if_true] at hx
  split at hx
  · next h => rw [h] at hx; cases hx
  · next h => exact h

theorem resolved_addr_append_diag (l : List Event) (t : String) (c : Int) :
    resolved_addr (l ++ [Event.stderr t, Event.exit c]) = resolved_addr l := by
  induction l with
  | nil => rfl
  | cons ev l ih => cases ev <;> simp [resolved_addr, ih]

theorem attempts_append_diag (l : List Event) (t : String) (c : Int) :
    attempts (l ++ [Event.stderr t, Event.exit c]) = attempts l := by
  induction l with
  | nil => rfl
  | cons ev l ih => cases ev <;> simp [attempts, ih, resolved_addr_append_diag]

theorem attempts_get_dlsym {W : Type} (e : Env W) (glibc : Bool) (d : Ptr) (w : W) :
    attempts (get_dlsym e glibc d w).events =
      attempts (get_dlsym_loop e (libs glibc) d 0 w).events := by
  unfold get_dlsym
  simp only []
  split
  · exact attempts_append_diag _ _ _
  · rfl

theorem libs_nodup (glibc : Bool) : (libs glibc).Nodup := by
  cases glibc <;> simp [libs]

theorem count_take_of_nodup {l : List String} (hl : l.Nodup) (n j : Nat) (q : String)
    (hj : j < n) (hq : l[j]? = some q) : (l.take n).count q = 1 := by
  have hmem : q ∈ l.take n := by
    rw [List.mem_iff_getElem?]
    exact ⟨j, by rw [List.getElem?_take_of_lt hj]; exact hq⟩
  exact List.count_eq_one_of_mem (hl.sublist (List.take_sublist n l)) hmem

theorem not_mem_take_of_nodup {l : List String} (hl : l.Nodup) (n j : Nat) (q : String)
    (hj : n ≤ j) (hq : l[j]? = some q) : q ∉ l.take n := by
  intro hmem
  rw [List.mem_iff_getElem?] at hmem
  obtain ⟨i, hi⟩ := hmem
  have hin : i < n := by
    by_contra hcon
    have hlen : (l.take n).length ≤ i := by
      have := List.length_take_le n l
      omega
    rw [List.getElem?_eq_none hlen] at hi
    cases hi
  rw [List.getElem?_take_of_lt hin] at hi
  obtain ⟨hjl, hjq⟩ := List.getElem?_eq_some_iff.1 hq
  obtain ⟨hil, hiq⟩ := List.getElem?_eq_some_iff.1 hi
  have := (List.Nodup.getElem_inj_iff hl).1 (hiq.trans hjq.symm)
  omega

theorem get_dlsym_value {W : Type} (e : Env W) (glibc : Bool) (d : Ptr) (w : W) :
    (get_dlsym e glibc d w).value = none := by
  unfold get_dlsym
  simp only []
  split <;> rfl

theorem real_dlsym_of_exits {W : Type} (e : Env W) (glibc : Bool) (w : W)
    (handle : Ptr) (symbol : String) (hx : (get_dlsym e glibc 0 w).exit ≠ none) :
    real_dlsym e glibc 0 w handle symbol = get_dlsym e glibc 0 w := by
  unfold real_dlsym
  simp only [if_true]
  split
  · rfl
  · next h => exact absurd h hx

theorem loop_events_head {W : Type} (e : Env W) (p : String) (ps : List String) (d : Ptr)
    (ret : Int) (w : W) :
    ∃ r o rest, (get_dlsym_loop e (p :: ps) d ret w).events = Event.find_obj p r o :: rest := by
  simp only [get_dlsym_loop]
  split
  · exact ⟨_, _, _, rfl⟩
  · split <;> exact ⟨_, _, _, rfl⟩

theorem libs_cons (glibc : Bool) : ∃ p ps, libs glibc = p :: ps := by
  cases glibc
  · exact ⟨_, _, rfl⟩
  · exact ⟨_, _, rfl⟩

theorem discipline_append_diag (l : List Event) (t : String) (c : Int) :
    ∀ ph : Phase, discipline ph (l ++ [Event.stderr t, Event.exit c]) = discipline ph l := by
  induction l with
  | nil => intro ph; cases ph <;> simp [discipline]
  | cons ev l ih =>
    intro ph
    cases ph <;> cases ev <;> simp [discipline, ih]

theorem discipline_loop {W : Type} (e : Env W) (ps : List String) :
    ∀ (d : Ptr) (ret : Int) (w : W),
      discipline Phase.idle (get_dlsym_loop e ps d ret w).events = true := by
  induction ps with
  | nil => intro d ret w; rfl
  | cons p ps ih =>
    intro d ret w
    simp only [get_dlsym_loop]
    split
    · next h => simp [discipline, h, ih]
    · next h =>
      have h0 : (e.eh_find_obj w p).1 = 0 := by simpa using h
      split <;> simp [discipline, h0, ih]

theorem counts_loop {W : Type} (e : Env W) (ps : List String) :
    ∀ (d : Ptr) (ret : Int) (w : W),
      (get_dlsym_loop e ps d ret w).events.countP is_resolve =
        (get_dlsym_loop e ps d ret w).events.countP is_successful_locate ∧
      (get_dlsym_loop e ps d ret w).events.countP is_release =
        (get_dlsym_loop e ps d ret w).events.countP is_successful_locate := by
  induction ps with
  | nil => intro d ret w; simp [get_dlsym_loop]
  | cons p ps ih =>
    intro d ret w
    simp only [get_dlsym_loop]
    split
    · next h =>
      simp [List.countP_cons, is_resolve, is_release, is_successful_locate, h, ih]
    · next h =>
      have h0 : (e.eh_find_obj w p).1 = 0 := by simpa using h
      split <;>
        simp [List.countP_cons, is_resolve, is_release, is_successful_locate, h0, ih]

theorem agree_head {α : Type} {a b : α} {l1 l2 : List α} (h : agree (a :: l1) (b :: l2)) :
    a = b := h 0 a b (by simp) (by simp)

theorem agree_tail {α : Type} {a b : α} {l1 l2 : List α} (h : agree (a :: l1) (b :: l2)) :
    agree l1 l2 := fun k x y hx hy => h (k + 1) x y (by simpa using hx) (by simpa using hy)

theorem calls_append (l1 l2 : List Event) : calls (l1 ++ l2) = calls l1 ++ calls l2 := by
  induction l1 with
  | nil => rfl
  | cons ev l ih => cases ev <;> simp [calls, ih]

theorem locate_ok_append (l1 l2 : List Event) :
    locate_ok (l1 ++ l2) = locate_ok l1 ++ locate_ok l2 := by
  induction l1 with
  | nil => rfl
  | cons ev l ih => cases ev <;> simp [locate_ok, ih]

theorem addresses_append (l1 l2 : List Event) :
    addresses (l1 ++ l2) = addresses l1 ++ addresses l2 := by
  induction l1 with
  | nil => rfl
  | cons ev l ih => cases ev <;> simp [addresses, ih]

theorem views_get_dlsym {W : Type} (e : Env W) (glibc : Bool) (d : Ptr) (w : W) :
    calls (get_dlsym e glibc d w).events = calls (get_dlsym_loop e (libs glibc) d 0 w).events ∧
    locate_ok (get_dlsym e glibc d w).events =
      locate_ok (get_dlsym_loop e (libs glibc) d 0 w).events ∧
    addresses (get_dlsym e glibc d w).events =
      addresses (get_dlsym_loop e (libs glibc) d 0 w).events := by
  unfold get_dlsym
  simp only []
  split
  · simp [calls_append, locate_ok_append, addresses_append, calls, locate_ok, addresses]
  · exact ⟨rfl, rfl, rfl⟩

theorem locate_ok_loop_cons {W : Type} (e : Env W) (p : String) (ps : List String) (d : Ptr)
    (ret : Int) (w : W) :
    ∃ t, locate_ok (get_dlsym_loop e (p :: ps) d ret w).events =
      decide ((e.eh_find_obj w p).1 = 0) :: t := by
  simp only [get_dlsym_loop]
  split
  · exact ⟨_, rfl⟩
  · split <;> exact ⟨_, rfl⟩

/-- Two runs of the loop from an empty cache that agree on which locates succeed and on the
addresses the resolves leave make the same calls and end with the same cache. -/
theorem loop_agree {W1 W2 : Type} (e1 : Env W1) (e2 : Env W2) (ps : List String) :
    ∀ (r1 r2 : Int) (w1 : W1) (w2 : W2),
      agree (locate_ok (get_dlsym_loop e1 ps 0 r1 w1).events)
        (locate_ok (get_dlsym_loop e2 ps 0 r2 w2).events) →
      agree (addresses (get_dlsym_loop e1 ps 0 r1 w1).events)
        (addresses (get_dlsym_loop e2 ps 0 r2 w2).events) →
      calls (get_dlsym_loop e1 ps 0 r1 w1).events = calls (get_dlsym_loop e2 ps 0 r2 w2).events ∧
      (get_dlsym_loop e1 ps 0 r1 w1).dlsym = (get_dlsym_loop e2 ps 0 r2 w2).dlsym := by
  induction ps with
  | nil => intro r1 r2 w1 w2 _ _; exact ⟨rfl, rfl⟩
  | cons p ps ih =>
    intro r1 r2 w1 w2 ha hb
    obtain ⟨t1, ht1⟩ := locate_ok_loop_cons e1 p ps 0 r1 w1
    obtain ⟨t2, ht2⟩ := locate_ok_loop_cons e2 p ps 0 r2 w2
    have hiff : (e1.eh_find_obj w1 p).1 = 0 ↔ (e2.eh_find_obj w2 p).1 = 0 := by
      have := agree_head (ht1 ▸ ht2 ▸ ha)
      simpa using this
    by_cases hf1 : (e1.eh_find_obj w1 p).1 = 0
    · have hf2 := hiff.1 hf1
      by_cases hs1 : (e1.eh_find_sym (e1.eh_find_obj w1 p).2.2 (e1.eh_find_obj w1 p).2.1
          "dlsym" 0).2.1 = 0 <;>
        by_cases hs2 : (e2.eh_find_sym (e2.eh_find_obj w2 p).2.2 (e2.eh_find_obj w2 p).2.1
          "dlsym" 0).2.1 = 0 <;>
        simp only [get_dlsym_loop, hf1, hf2, hs1, hs2, ne_eq, not_true_eq_false, if_false,
          not_false_eq_true, if_true, locate_ok, addresses, calls] at ha hb ⊢
      · obtain ⟨h1, h2⟩ := ih _ _ _ _ (agree_tail ha) (agree_tail hb)
        exact ⟨by rw [h1], h2⟩
      · exact absurd (agree_head hb).symm hs2
      · exact absurd (agree_head hb) hs1
      · exact ⟨trivial, agree_head hb⟩
    · have hf2 : ¬ (e2.eh_find_obj w2 p).1 = 0 := fun h => hf1 (hiff.2 h)
      simp only [get_dlsym_loop, hf1, hf2, ne_eq, not_false_eq_true, if_true, locate_ok,
        addresses, calls] at ha hb ⊢
      obtain ⟨h1, h2⟩ := ih _ _ _ _ (agree_tail ha) hb
      exact ⟨by rw [h1], h2⟩

theorem agree_refl {α : Type} (l : List α) : agree l l :=
  fun _ _ _ ha hb => Option.some.inj (ha.symm.trans hb)

/-- After a failed candidate that is not the last pattern, the next pattern is passed to
`eh_find_obj`. -/
theorem failed_attempt_continues {W : Type} (e : Env W) (glibc : Bool) (w : W) (i : Nat)
    (a : Attempt) (hi : (attempts (get_dlsym e glibc 0 w).events)[i]? = some a)
    (hfail : a.failed) :
    (located (get_dlsym e glibc 0 w).events)[i + 1]? = (libs glibc)[i + 1]? := by
  rw [located_eq_map_attempts]
  rw [attempts_get_dlsym] at hi ⊢
  rcases loop_shape e (libs glibc) 0 w with ⟨_, h2, _⟩ | ⟨h1, fs, q, o, rest, h2, h3, h4⟩
  · rw [h2]
  · have hlt : i < fs.length := by
      rcases Nat.lt_trichotomy i fs.length with hlt | heq | hgt
      · exact hlt
      · rw [h2, heq] at hi
        have hlast : (⟨q, 0, o, some (get_dlsym_loop e (libs glibc) 0 0 w).dlsym⟩ : Attempt) = a := by
          simpa using hi
        subst hlast
        rcases hfail with h | h
        · exact absurd rfl h
        · exact absurd (Option.some.inj h) h1
      · rw [h2, List.getElem?_eq_none (by simp; omega)] at hi
        cases hi
    have hlen : (attempts (get_dlsym_loop e (libs glibc) 0 0 w).events).length
        = fs.length + 1 := by
      rw [h2]; simp
    conv_rhs => rw [h4]
    rw [List.getElem?_append_left (by simp [hlen]; omega)]

theorem stderr_text_loop {W : Type} (e : Env W) (ps : List String) :
    ∀ (d : Ptr) (ret : Int) (w : W), stderr_text (get_dlsym_loop e ps d ret w).events = [] := by
  induction ps with
  | nil => intro d ret w; rfl
  | cons p ps ih =>
    intro d ret w
    simp only [get_dlsym_loop]
    split
    · simp [stderr_text, ih]
    · split <;> simp [stderr_text, ih]

theorem stderr_text_append (l1 l2 : List Event) :
    stderr_text (l1 ++ l2) = stderr_text l1 ++ stderr_text l2 := by
  induction l1 with
  | nil => rfl
  | cons ev l ih => cases ev <;> simp [stderr_text, ih]

theorem locate_rets_append (l1 l2 : List Event) :
    locate_rets (l1 ++ l2) = locate_rets l1 ++ locate_rets l2 := by
  induction l1 with
  | nil => rfl
  | cons ev l ih => cases ev <;> simp [locate_rets, ih]

/-- At the end of the loop the local `ret` holds the return code of the last `eh_find_obj`
call (its initial content when no call was made). -/
theorem loop_ret_last {W : Type} (e : Env W) (ps : List String) :
    ∀ (d : Ptr) (ret : Int) (w : W),
      (get_dlsym_loop e ps d ret w).ret =
        (locate_rets (get_dlsym_loop e ps d ret w).events).getLast?.getD ret := by
  induction ps with
  | nil => intro d ret w; rfl
  | cons p ps ih =>
    intro d ret w
    simp only [get_dlsym_loop]
    split
    · simp only [locate_rets, List.getLast?_cons, Option.getD_some]
      exact ih _ _ _
    · split
      · simp [locate_rets]
      · simp only [locate_rets, List.getLast?_cons, Option.getD_some]
        exact ih _ _ _

/-- The initial content of the local `ret` is never observable: `libs` is not empty. -/
theorem get_dlsym_loop_ret_irrelevant {W : Type} (e : Env W) (p : String) (ps : List String)
    (d : Ptr) (r1 r2 : Int) (w : W) :
    get_dlsym_loop e (p :: ps) d r1 w = get_dlsym_loop e (p :: ps) d r2 w := by
  simp only [get_dlsym_loop]

/-- What a failed bootstrap reports: the diagnostic line, then `exit` with the last
`eh_find_obj` return code, or 1 when that code is 0. -/
theorem get_dlsym_of_exits {W : Type} (e : Env W) (glibc : Bool) (d : Ptr) (w : W) (c : Int)
    (hx : (get_dlsym e glibc d w).exit ≠ none)
    (hc : (locate_rets (get_dlsym e glibc d w).events).getLast? = some c) :
    (get_dlsym e glibc d w).events =
      (get_dlsym_loop e (libs glibc) d 0 w).events ++
        [Event.stderr diagnostic, Event.exit (exit_arg c)] ∧
    (get_dlsym e glibc d w).exit = some (exit_arg c) ∧
    stderr_text (get_dlsym e glibc d w).events = [diagnostic] ∧
    exit_arg c ≠ 0 := by
  have hret := loop_ret_last e (libs glibc) d 0 w
  unfold get_dlsym at hx hc ⊢
  simp only [] at hx hc ⊢
  split at hx
  · next h =>
    simp only [h, if_true] at hc ⊢
    simp only [locate_rets_append, locate_rets, List.append_nil] at hc
    rw [hc] at hret
    simp only [Option.getD_some] at hret
    rw [hret]
    refine ⟨rfl, rfl, ?_, ?_⟩
    · simp [stderr_text_append, stderr_text_loop, stderr_text]
    · unfold exit_arg; split <;> simp [*]
  · exact absurd rfl hx

theorem located_eq_calls (l : List Event) : located l = (calls l).filterMap Call.pattern? := by
  induction l with
  | nil => rfl
  | cons ev l ih => cases ev <;> simp [located, calls, Call.pattern?, ih]

theorem scan_reads_mapped (m : Image) (obj : eh_obj_t) (name : String) (tab : List SymEntry)
    (hall : tab.all (well_formed m obj) = true) :
    ∀ x ∈ (scan m obj name tab).reads, m.mapped x = true := by
  induction tab with
  | nil => intro x hx; simp [scan] at hx
  | cons en rest ih =>
    have hen : well_formed m obj en = true := by
      have := List.all_eq_true.1 hall en (List.mem_cons_self _ _)
      exact this
    have hrest : rest.all (well_formed m obj) = true :=
      List.all_eq_true.2 fun y hy => List.all_eq_true.1 hall y (List.mem_cons_of_mem _ hy)
    have hname : m.mapped (name_address m obj en) = true := by
      unfold well_formed at hen
      exact (Bool.and_eq_true _ _ ▸ hen).1
    intro x hx
    simp only [scan] at hx
    split at hx
    · rcases List.mem_singleton.1 hx with rfl
      exact hname
    · rcases List.mem_cons.1 hx with rfl | hx
      · exact hname
      · exact ih hrest x hx

/-- The resolver never reads an unmapped address. -/
theorem resolve_reads_mapped (m : Image) (obj : eh_obj_t) (name : String) :
    ∀ x ∈ (resolve m obj name).reads, m.mapped x = true := by
  unfold resolve
  split
  · intro x hx; simp at hx
  · next tab _ =>
    split
    · next hall => exact scan_reads_mapped m obj name tab hall
    · intro x hx; simp at hx

theorem resolve_malformed (m : Image) (obj : eh_obj_t) (name : String) (tab : List SymEntry)
    (en : SymEntry) (htab : m.symtab obj.dynamic_section_pointer = some tab) (hen : en ∈ tab)
    (hbad : well_formed m obj en = false) :
    resolve m obj name = ⟨Except.error ResolveError.Corrupt, []⟩ := by
  unfold resolve
  rw [htab]
  have hall : ¬ (tab.all (well_formed m obj) = true) := by
    intro h
    have := List.all_eq_true.1 h en hen
    rw [hbad] at this
    cases this
  simp [hall]

/-- In a run of the loop from an empty cache with the resolver over `m`, every located
candidate was resolved by one `eh_find_sym` call whose return code and output are those of
`resolver_find_sym` on its handle. -/
theorem loop_with_resolver {W : Type} (e : Env W) (m : Image) (code : ResolveError → Int)
    (clear : Bool) (ps : List String) :
    ∀ (ret : Int) (w : W), ∀ a ∈ attempts (get_dlsym_loop (with_resolver e m code clear) ps 0 ret w).events,
      a.ret = 0 →
      a.addr = some (resolver_find_sym m code clear () a.obj "dlsym" 0).2.1 ∧
      Event.find_sym a.obj "dlsym" (resolver_find_sym m code clear () a.obj "dlsym" 0).1
        (resolver_find_sym m code clear () a.obj "dlsym" 0).2.1 ∈
          (get_dlsym_loop (with_resolver e m code clear) ps 0 ret w).events := by
  have hout : ∀ (w : W) (obj : eh_obj_t),
      (resolver_find_sym m code clear w obj "dlsym" 0).1 = (resolver_find_sym m code clear () obj "dlsym" 0).1 ∧
      (resolver_find_sym m code clear w obj "dlsym" 0).2.1 =
        (resolver_find_sym m code clear () obj "dlsym" 0).2.1 := by
    intro w obj
    unfold resolver_find_sym
    split <;> exact ⟨rfl, rfl⟩
  induction ps with
  | nil => intro ret w a ha; simp [get_dlsym_loop, attempts] at ha
  | cons p ps ih =>
    intro ret w a
    simp only [get_dlsym_loop]
    split
    · next hf =>
      simp only [attempts, List.mem_cons]
      rintro (rfl | ha) h0
      · exact absurd h0 hf
      · obtain ⟨h1, h2⟩ := ih _ _ a ha h0
        exact ⟨h1, Or.inr h2⟩
    · split
      · simp only [attempts, resolved_addr, List.mem_cons, List.mem_singleton,
          List.not_mem_nil, or_false]
        rintro rfl _
        simp only [with_resolver]
        rw [(hout _ _).1, (hout _ _).2]
        exact ⟨rfl, Or.inr (Or.inl rfl)⟩
      · next hs =>
        simp only [attempts, resolved_addr, List.mem_cons]
        rintro (rfl | ha) h0
        · simp only [with_resolver]
          rw [(hout _ _).1, (hout _ _).2]
          exact ⟨rfl, Or.inr (Or.inl rfl)⟩
        · obtain ⟨h1, h2⟩ := ih _ _ a ha h0
          exact ⟨h1, Or.inr (Or.inr (Or.inr h2))⟩

theorem mem_get_dlsym_of_mem_loop {W : Type} (e : Env W) (glibc : Bool) (d : Ptr) (w : W)
    (ev : Event) (h : ev ∈ (get_dlsym_loop e (libs glibc) d 0 w).events) :
    ev ∈ (get_dlsym e glibc d w).events := by
  unfold get_dlsym
  simp only []
  split
  · exact List.mem_append_left _ h
  · exact h

/-- From an empty cache, `get_dlsym` calls `exit` exactly when every pattern was tried and
every candidate failed. -/
theorem exit_iff_all_failed {W : Type} (e : Env W) (glibc : Bool) (w : W) :
    (get_dlsym e glibc 0 w).exit ≠ none ↔
      (located (get_dlsym e glibc 0 w).events = libs glibc ∧
        ∀ a ∈ attempts (get_dlsym e glibc 0 w).events, a.failed) := by
  rw [ne_eq, get_dlsym_exit_none_iff, get_dlsym_dlsym, located_eq_map_attempts,
    attempts_get_dlsym]
  rcases loop_shape e (libs glibc) 0 w with ⟨h1, h2, h3⟩ | ⟨h1, fs, q, o, rest, h2, h3, h4⟩
  · exact ⟨fun _ => ⟨h2, h3⟩, fun _ => by simp [h1]⟩
  · constructor
    · intro h; exact absurd h1 h
    · rintro ⟨_, hall⟩
      have hmem : (⟨q, 0, o, some (get_dlsym_loop e (libs glibc) 0 0 w).dlsym⟩ : Attempt) ∈
          attempts (get_dlsym_loop e (libs glibc) 0 0 w).events := by
        rw [h2]; simp
      rcases hall _ hmem with h | h
      · exact absurd rfl h
      · exact absurd (Option.some.inj h) h1

theorem exit_status_exit_arg_eq_zero (c : Int) :
    exit_status (exit_arg c) = 0 ↔ (c ≠ 0 ∧ c % 256 = 0) := by
  unfold exit_status exit_arg
  by_cases hc : c = 0
  · subst hc; simp
  · simp [hc]

theorem no_exit_loop {W : Type} (e : Env W) (ps : List String) :
    ∀ (d : Ptr) (ret : Int) (w : W) (x : Int),
      Event.exit x ∉ (get_dlsym_loop e ps d ret w).events := by
  induction ps with
  | nil => intro d ret w x; simp [get_dlsym_loop]
  | cons p ps ih =>
    intro d ret w x
    simp only [get_dlsym_loop]
    split
    · simp [ih]
    · split <;> simp [ih]

theorem resolved_addr_append_invoke (l : List Event) (fn h : Ptr) (sy : String) (r : Ptr) :
    resolved_addr (l ++ [Event.invoke fn h sy r]) = resolved_addr l := by
  induction l with
  | nil => rfl
  | cons ev l ih => cases ev <;> simp [resolved_addr, ih]

theorem attempts_append_invoke (l : List Event) (fn h : Ptr) (sy : String) (r : Ptr) :
    attempts (l ++ [Event.invoke fn h sy r]) = attempts l := by
  induction l with
  | nil => rfl
  | cons ev l ih => cases ev <;> simp [attempts, ih, resolved_addr_append_invoke]

/-- A non-null cache at the end of the loop started with an empty cache is the address that
`eh_find_sym` left for a candidate of the list whose `eh_find_obj` returned 0. -/
theorem loop_yield {W : Type} (e : Env W) (ps : List String) :
    ∀ (ret : Int) (w : W), (get_dlsym_loop e ps 0 ret w).dlsym ≠ 0 →
      ∃ p ∈ ps, ∃ w0, (e.eh_find_obj w0 p).1 = 0 ∧
        (get_dlsym_loop e ps 0 ret w).dlsym =
          (e.eh_find_sym (e.eh_find_obj w0 p).2.2 (e.eh_find_obj w0 p).2.1 "dlsym" 0).2.1 := by
  induction ps with
  | nil => intro ret w h; exact absurd rfl h
  | cons p ps ih =>
    intro ret w
    by_cases hf : (e.eh_find_obj w p).1 = 0
    · by_cases hs : (e.eh_find_sym (e.eh_find_obj w p).2.2 (e.eh_find_obj w p).2.1
          "dlsym" 0).2.1 = 0
      · simp only [get_dlsym_loop, hf, hs, ne_eq, not_true_eq_false, if_false]
        intro h
        obtain ⟨q, hq, w0, h0, h1⟩ := ih _ _ h
        exact ⟨q, List.mem_cons_of_mem _ hq, w0, h0, h1⟩
      · simp only [get_dlsym_loop, hf, hs, ne_eq, not_true_eq_false, if_false,
          not_false_eq_true, if_true]
        intro _
        exact ⟨p, List.mem_cons_self _ _, w, hf, rfl⟩
    · simp only [get_dlsym_loop, hf, ne_eq, not_false_eq_true, if_true]
      intro h
      obtain ⟨q, hq, w0, h0, h1⟩ := ih _ _ h
      exact ⟨q, List.mem_cons_of_mem _ hq, w0, h0, h1⟩

/-- When `get_dlsym` returns from an empty cache, the last candidate tried was located and its
`eh_find_sym` left the address now in the cache. -/
theorem get_dlsym_last_attempt {W : Type} (e : Env W) (glibc : Bool) (w : W)
    (hx : (get_dlsym e glibc 0 w).exit = none) :
    ∃ p obj, (attempts (get_dlsym e glibc 0 w).events).getLast? =
      some ⟨p, 0, obj, some (get_dlsym e glibc 0 w).dlsym⟩ := by
  have hne := (get_dlsym_exit_none_iff e glibc 0 w).1 hx
  rw [get_dlsym_dlsym] at hne ⊢
  rw [attempts_get_dlsym]
  rcases loop_shape e (libs glibc) 0 w with ⟨h1, _, _⟩ | ⟨_, fs, q, o, rest, h2, _, _⟩
  · exact absurd h1 hne
  · exact ⟨q, o, by rw [h2, List.getLast?_concat]⟩

/-! ## The claims -/

/-- C1. Idempotent cache: when the first of two consecutive `real_dlsym` calls starts from an
empty cache and returns, both calls go through the same non-null function address, the second
call consists of that one call only (no `eh_find_obj`, `eh_find_sym` or `eh_destroy_obj`), and
it leaves `__dlsym` unchanged. -/
theorem real_dlsym_idempotent_cache {W : Type} (e : Env W) (glibc : Bool) (w : W)
    (h1 h2 : Ptr) (s1 s2 : String)
    (hret : (real_dlsym e glibc 0 w h1 s1).exit = none) :
    ∃ fn res1 res2, fn ≠ 0 ∧
      (real_dlsym e glibc 0 w h1 s1).events =
        (get_dlsym e glibc 0 w).events ++ [Event.invoke fn h1 s1 res1] ∧
      invocations (real_dlsym e glibc 0 w h1 s1).events = [(fn, h1, s1, res1)] ∧
      (real_dlsym e glibc (real_dlsym e glibc 0 w h1 s1).dlsym
        (real_dlsym e glibc 0 w h1 s1).world h2 s2).events = [Event.invoke fn h2 s2 res2] ∧
      (real_dlsym e glibc (real_dlsym e glibc 0 w h1 s1).dlsym
        (real_dlsym e glibc 0 w h1 s1).world h2 s2).dlsym = (real_dlsym e glibc 0 w h1 s1).dlsym ∧
      (real_dlsym e glibc (real_dlsym e glibc 0 w h1 s1).dlsym
        (real_dlsym e glibc 0 w h1 s1).world h2 s2).exit = none := by
  have hg := real_dlsym_empty_returns e glibc w h1 s1 hret
  have hne := (get_dlsym_exit_none_iff e glibc 0 w).1 hg
  have h1eq := real_dlsym_of_returns e glibc 0 w h1 s1 (get_dlsym e glibc 0 w) (by simp) hg
  rw [h1eq]
  simp only []
  rw [real_dlsym_nonempty e glibc _ _ h2 s2 hne]
  exact ⟨_, _, _, hne, rfl,
    by simp [invocations_append, invocations_get_dlsym, invocations], rfl, rfl, rfl⟩

/-- Witness of C1 on a glibc process where only libc is loaded. -/
theorem real_dlsym_idempotent_cache_witness :
    (real_dlsym libc_only true 0 () 7 "glClear").exit = none ∧
    ∃ fn res1 res2, fn ≠ 0 ∧
      (real_dlsym libc_only true 0 () 7 "glClear").events =
        (get_dlsym libc_only true 0 ()).events ++ [Event.invoke fn 7 "glClear" res1] ∧
      invocations (real_dlsym libc_only true 0 () 7 "glClear").events =
        [(fn, 7, "glClear", res1)] ∧
      (real_dlsym libc_only true (real_dlsym libc_only true 0 () 7 "glClear").dlsym
        (real_dlsym libc_only true 0 () 7 "glClear").world 9 "glFlush").events =
          [Event.invoke fn 9 "glFlush" res2] ∧
      (real_dlsym libc_only true (real_dlsym libc_only true 0 () 7 "glClear").dlsym
        (real_dlsym libc_only true 0 () 7 "glClear").world 9 "glFlush").dlsym =
          (real_dlsym libc_only true 0 () 7 "glClear").dlsym ∧
      (real_dlsym libc_only true (real_dlsym libc_only true 0 () 7 "glClear").dlsym
        (real_dlsym libc_only true 0 () 7 "glClear").world 9 "glFlush").exit = none :=
  ⟨by simp [real_dlsym, get_dlsym, get_dlsym_loop, libs, libc_only],
   real_dlsym_idempotent_cache libc_only true () 7 9 "glClear" "glFlush"
     (by simp [real_dlsym, get_dlsym, get_dlsym_loop, libs, libc_only])⟩

/-- C2. First success in priority order: when, in a run of `get_dlsym` from an empty cache, the
candidate at position `k` was located (`eh_find_obj` returned 0) and its `eh_find_sym` left the
non-null address `A`, then that candidate is pattern `k` of `libs`, every earlier candidate
failed, `get_dlsym` returns with `__dlsym = A`, the patterns passed to `eh_find_obj` are exactly
the first `k + 1` patterns of `libs` in order, each pattern before `k` was tried exactly once and
no pattern after `k` was passed to `eh_find_obj`. -/
theorem get_dlsym_first_success {W : Type} (e : Env W) (glibc : Bool) (w : W) (k : Nat)
    (p : String) (obj : eh_obj_t) (A : Ptr)
    (hk : (attempts (get_dlsym e glibc 0 w).events)[k]? = some ⟨p, 0, obj, some A⟩)
    (hA : A ≠ 0) :
    (libs glibc)[k]? = some p ∧
    (∀ j a, j < k → (attempts (get_dlsym e glibc 0 w).events)[j]? = some a → a.failed) ∧
    (get_dlsym e glibc 0 w).exit = none ∧
    (get_dlsym e glibc 0 w).dlsym = A ∧
    located (get_dlsym e glibc 0 w).events = (libs glibc).take (k + 1) ∧
    (∀ j q, j < k → (libs glibc)[j]? = some q →
      (located (get_dlsym e glibc 0 w).events).count q = 1) ∧
    (∀ j q, k < j → (libs glibc)[j]? = some q → q ∉ located (get_dlsym e glibc 0 w).events) := by
  rw [located_eq_map_attempts, get_dlsym_exit_none_iff, get_dlsym_dlsym]
  rw [attempts_get_dlsym] at hk ⊢
  have hmem : (⟨p, 0, obj, some A⟩ : Attempt) ∈
      attempts (get_dlsym_loop e (libs glibc) 0 0 w).events := List.getElem?_mem hk
  have hnf : ¬ (⟨p, 0, obj, some A⟩ : Attempt).failed := by
    simp [Attempt.failed, hA]
  rcases loop_shape e (libs glibc) 0 w with ⟨_, _, h3⟩ | ⟨h1, fs, q, o, rest, h2, h3, h4⟩
  · exact absurd (h3 _ hmem) hnf
  · have hklen : k = fs.length := by
      rcases Nat.lt_trichotomy k fs.length with hlt | heq | hgt
      · rw [h2, List.getElem?_append_left hlt] at hk
        exact absurd (h3 _ (List.getElem?_mem hk)) hnf
      · exact heq
      · rw [h2, List.getElem?_eq_none (by simp; omega)] at hk
        cases hk
    have hlast : (⟨q, 0, o, some (get_dlsym_loop e (libs glibc) 0 0 w).dlsym⟩ : Attempt) =
        ⟨p, 0, obj, some A⟩ := by
      rw [h2, hklen] at hk
      simpa using hk
    have hA2 : (get_dlsym_loop e (libs glibc) 0 0 w).dlsym = A := by
      injection hlast with _ _ _ h
      exact Option.some.inj h
    have hlen : (attempts (get_dlsym_loop e (libs glibc) 0 0 w).events).length = k + 1 := by
      rw [h2, hklen]; simp
    have htake : (attempts (get_dlsym_loop e (libs glibc) 0 0 w).events).map Attempt.pattern =
        (libs glibc).take (k + 1) := by
      conv_rhs => rw [h4]
      rw [List.take_append_of_le_length (by simp [hlen])]
      rw [List.take_of_length_le (by simp [hlen])]
    have hlibk : (libs glibc)[k]? = some p := by
      have : ((libs glibc).take (k + 1))[k]? = some p := by
        rw [← htake, List.getElem?_map, hk]; rfl
      rwa [List.getElem?_take_of_lt (Nat.lt_succ_self k)] at this
    refine ⟨hlibk, ?_, h1, hA2, htake, ?_, ?_⟩
    · intro j a hj ha
      rw [h2, List.getElem?_append_left (by omega)] at ha
      exact h3 _ (List.getElem?_mem ha)
    · intro j r hj hr
      rw [htake]
      exact count_take_of_nodup (libs_nodup glibc) (k + 1) j r (by omega) hr
    · intro j r hj hr
      rw [htake]
      exact not_mem_take_of_nodup (libs_nodup glibc) (k + 1) j r (by omega) hr

/-- Witness of C2, the scenario of the claim: on a glibc build where `*libdl.so*` is not loaded
and `*libc.so*` is loaded and exports `dlsym`, the first locate fails, the second succeeds and
the cache holds the address resolved from it. -/
theorem get_dlsym_first_success_witness :
    (get_dlsym libc_only true 0 ()).events =
      [Event.find_obj "*libdl.so*" 2 default,
       Event.find_obj "*libc.so*" 0 ⟨1000, 2000, "/usr/lib/libc.so.6"⟩,
       Event.find_sym ⟨1000, 2000, "/usr/lib/libc.so.6"⟩ "dlsym" 0 4096,
       Event.destroy_obj ⟨1000, 2000, "/usr/lib/libc.so.6"⟩ 0] ∧
    (attempts (get_dlsym libc_only true 0 ()).events)[1]? =
      some ⟨"*libc.so*", 0, ⟨1000, 2000, "/usr/lib/libc.so.6"⟩, some 4096⟩ ∧
    (4096 : Ptr) ≠ 0 ∧
    ((libs true)[1]? = some "*libc.so*" ∧
    (∀ j a, j < 1 → (attempts (get_dlsym libc_only true 0 ()).events)[j]? = some a → a.failed) ∧
    (get_dlsym libc_only true 0 ()).exit = none ∧
    (get_dlsym libc_only true 0 ()).dlsym = 4096 ∧
    located (get_dlsym libc_only true 0 ()).events = (libs true).take (1 + 1) ∧
    (∀ j q, j < 1 → (libs true)[j]? = some q →
      (located (get_dlsym libc_only true 0 ()).events).count q = 1) ∧
    (∀ j q, 1 < j → (libs true)[j]? = some q →
      q ∉ located (get_dlsym libc_only true 0 ()).events)) :=
  ⟨by simp [get_dlsym, get_dlsym_loop, libs, libc_only],
   by simp [get_dlsym, get_dlsym_loop, libs, libc_only, attempts, resolved_addr],
   by decide,
   get_dlsym_first_success libc_only true () 1 "*libc.so*" ⟨1000, 2000, "/usr/lib/libc.so.6"⟩
     4096
     (by simp [get_dlsym, get_dlsym_loop, libs, libc_only, attempts, resolved_addr])
     (by decide)⟩

/-- C3. Termination if and only if every candidate failed: `get_dlsym` started with an empty
cache calls `exit` exactly when `eh_find_obj` was called on every pattern of `libs` and each
candidate failed (`eh_find_obj` returned non-zero or `eh_find_sym` left the address null); and
`real_dlsym` entered with a non-empty cache never terminates the process. -/
theorem get_dlsym_exits_iff_all_failed {W : Type} (e : Env W) (glibc : Bool) (w : W) :
    ((get_dlsym e glibc 0 w).exit ≠ none ↔
      (located (get_dlsym e glibc 0 w).events = libs glibc ∧
        ∀ a ∈ attempts (get_dlsym e glibc 0 w).events, a.failed)) ∧
    (∀ (d handle : Ptr) (symbol : String), d ≠ 0 →
      (real_dlsym e glibc d w handle symbol).exit = none) := by
  refine ⟨exit_iff_all_failed e glibc w, ?_⟩
  intro d handle symbol hd
  rw [real_dlsym_nonempty e glibc d w handle symbol hd]

/-- Witness of C3: with a cache holding 4096, `real_dlsym` returns even in a process where
nothing can be located. -/
theorem get_dlsym_exits_iff_all_failed_witness :
    (4096 : Ptr) ≠ 0 ∧ (real_dlsym (nothing_loaded 2) true 4096 () 7 "glClear").exit = none :=
  ⟨by decide,
   (get_dlsym_exits_iff_all_failed (nothing_loaded 2) true ()).2 4096 7 "glClear" (by decide)⟩

/-- C6, counterexample: `get_dlsym` entered with the non-empty cache `5` on a glibc process
where libc is loaded calls `eh_find_obj` and `eh_find_sym` again and replaces the cached
address by 4096. -/
theorem get_dlsym_nonempty_cache_searches_again :
    (5 : Ptr) ≠ 0 ∧
    (get_dlsym libc_only true 5 ()).events =
      [Event.find_obj "*libdl.so*" 2 default,
       Event.find_obj "*libc.so*" 0 ⟨1000, 2000, "/usr/lib/libc.so.6"⟩,
       Event.find_sym ⟨1000, 2000, "/usr/lib/libc.so.6"⟩ "dlsym" 0 4096,
       Event.destroy_obj ⟨1000, 2000, "/usr/lib/libc.so.6"⟩ 0] ∧
    (get_dlsym libc_only true 5 ()).dlsym = 4096 ∧
    (get_dlsym libc_only true 5 ()).dlsym ≠ 5 := by
  simp [get_dlsym, get_dlsym_loop, libs, libc_only]

/-- C6, amended. The guard is the null test in `real_dlsym`: entered with a non-empty cache,
`real_dlsym` makes the call through the cached pointer and nothing else (no `eh_find_obj`,
`eh_find_sym` or `eh_destroy_obj`) and leaves `__dlsym` unchanged. `get_dlsym` has no guard of
its own: whatever the cache holds, it begins with an `eh_find_obj` call on the first pattern. -/
theorem real_dlsym_write_once {W : Type} (e : Env W) (glibc : Bool) (d : Ptr) (w : W)
    (handle : Ptr) (symbol : String) (hd : d ≠ 0) :
    (∃ v, (real_dlsym e glibc d w handle symbol).events = [Event.invoke d handle symbol v]) ∧
    (real_dlsym e glibc d w handle symbol).dlsym = d ∧
    (∃ p ret obj rest, (libs glibc)[0]? = some p ∧
      (get_dlsym e glibc d w).events = Event.find_obj p ret obj :: rest) := by
  rw [real_dlsym_nonempty e glibc d w handle symbol hd]
  refine ⟨⟨_, rfl⟩, rfl, ?_⟩
  obtain ⟨p, ps, hl⟩ := libs_cons glibc
  obtain ⟨r, o, rest, hev⟩ := loop_events_head e p ps d 0 w
  unfold get_dlsym
  simp only [hl]
  split
  · exact ⟨p, r, o, rest ++ _, by simp, by rw [hev]; rfl⟩
  · exact ⟨p, r, o, rest, by simp, hev⟩

/-- Witness of C6 (amended). -/
theorem real_dlsym_write_once_witness :
    (5 : Ptr) ≠ 0 ∧
    (∃ v, (real_dlsym libc_only true 5 () 7 "glClear").events =
      [Event.invoke 5 7 "glClear" v]) ∧
    (real_dlsym libc_only true 5 () 7 "glClear").dlsym = 5 ∧
    (∃ p ret obj rest, (libs true)[0]? = some p ∧
      (get_dlsym libc_only true 5 ()).events = Event.find_obj p ret obj :: rest) :=
  ⟨by decide, real_dlsym_write_once libc_only true 5 () 7 "glClear" (by decide)⟩

/-- C7. `real_dlsym` forwards to a non-null resolved function. When `real_dlsym` returns:
the cache is non-null; it is either the address the cache held on entry (no search was made)
or, from an empty cache, the address that `eh_find_sym` left for the last candidate tried, a
pattern of `libs` whose `eh_find_obj` returned 0; the external function at that address was
called exactly once, as the last action, with the unchanged pair `(handle, symbol)`; and the
value returned and the world left are the result and the world of that very call. When the
process was terminated instead, the cache was empty on entry and no call through it was made. -/
theorem real_dlsym_forwards {W : Type} (e : Env W) (glibc : Bool) (d : Ptr) (w : W)
    (handle : Ptr) (symbol : String) :
    ((real_dlsym e glibc d w handle symbol).exit = none →
      (real_dlsym e glibc d w handle symbol).dlsym ≠ 0 ∧
      (∃ v, invocations (real_dlsym e glibc d w handle symbol).events =
          [((real_dlsym e glibc d w handle symbol).dlsym, handle, symbol, v)] ∧
        (real_dlsym e glibc d w handle symbol).value = some v) ∧
      ((d ≠ 0 ∧ (real_dlsym e glibc d w handle symbol).dlsym = d ∧
          located (real_dlsym e glibc d w handle symbol).events = []) ∨
        (d = 0 ∧
          (∃ p obj, (attempts (real_dlsym e glibc d w handle symbol).events).getLast? =
            some ⟨p, 0, obj, some (real_dlsym e glibc d w handle symbol).dlsym⟩) ∧
          ∃ p ∈ libs glibc, ∃ w0, (e.eh_find_obj w0 p).1 = 0 ∧
            (real_dlsym e glibc d w handle symbol).dlsym =
              (e.eh_find_sym (e.eh_find_obj w0 p).2.2 (e.eh_find_obj w0 p).2.1
                "dlsym" 0).2.1)) ∧
      invocations (real_dlsym e glibc d w handle symbol).events =
        [((real_dlsym e glibc d w handle symbol).dlsym, handle, symbol,
          (e.call (if d = 0 then (get_dlsym e glibc 0 w).world else w)
            (real_dlsym e glibc d w handle symbol).dlsym handle symbol).1)] ∧
      (real_dlsym e glibc d w handle symbol).events.getLast? =
        some (Event.invoke (real_dlsym e glibc d w handle symbol).dlsym handle symbol
          (e.call (if d = 0 then (get_dlsym e glibc 0 w).world else w)
            (real_dlsym e glibc d w handle symbol).dlsym handle symbol).1) ∧
      (real_dlsym e glibc d w handle symbol).value =
        some (e.call (if d = 0 then (get_dlsym e glibc 0 w).world else w)
          (real_dlsym e glibc d w handle symbol).dlsym handle symbol).1 ∧
      (real_dlsym e glibc d w handle symbol).world =
        (e.call (if d = 0 then (get_dlsym e glibc 0 w).world else w)
          (real_dlsym e glibc d w handle symbol).dlsym handle symbol).2) ∧
    ((real_dlsym e glibc d w handle symbol).exit ≠ none →
      invocations (real_dlsym e glibc d w handle symbol).events = [] ∧
      (real_dlsym e glibc d w handle symbol).value = none ∧
      d = 0) := by
  by_cases hd : d = 0
  · subst hd
    by_cases hx : (get_dlsym e glibc 0 w).exit = none
    · have hne := (get_dlsym_exit_none_iff e glibc 0 w).1 hx
      obtain ⟨p, obj, hlast⟩ := get_dlsym_last_attempt e glibc w hx
      have hy := loop_yield e (libs glibc) 0 w (by rw [← get_dlsym_dlsym]; exact hne)
      rw [← get_dlsym_dlsym] at hy
      rw [real_dlsym_of_returns e glibc 0 w handle symbol (get_dlsym e glibc 0 w) (by simp) hx]
      refine ⟨fun _ => ⟨hne, ⟨_, ?_, rfl⟩, Or.inr ⟨rfl, ⟨p, obj, ?_⟩, hy⟩, ?_, ?_, ?_, ?_⟩,
        fun h => absurd rfl h⟩
      · simp [invocations_append, invocations_get_dlsym, invocations]
      · simp only [attempts_append_invoke]; exact hlast
      · simp [invocations_append, invocations_get_dlsym, invocations]
      · simp [List.getLast?_concat]
      · simp
      · simp
    · rw [real_dlsym_of_exits e glibc w handle symbol hx]
      exact ⟨fun h => absurd h hx,
        fun _ => ⟨invocations_get_dlsym e glibc 0 w, get_dlsym_value e glibc 0 w, rfl⟩⟩
  · rw [real_dlsym_nonempty e glibc d w handle symbol hd]
    refine ⟨fun _ => ⟨hd, ⟨_, rfl, rfl⟩, Or.inl ⟨hd, rfl, rfl⟩, ?_, ?_, ?_, ?_⟩,
      fun h => absurd rfl h⟩
    · simp [invocations, hd]
    · simp [hd]
    · simp [hd]
    · simp [hd]

/-- Witness of C7: on a glibc process where only libc is loaded, whose `dlsym` at 4096 answers
`fn + handle`, `real_dlsym(7, "glClear")` from an empty cache returns 4103, the result of the
one call through 4096, the address that `eh_find_sym` left for `*libc.so*`. -/
theorem real_dlsym_forwards_witness :
    (real_dlsym libc_only true 0 () 7 "glClear").exit = none ∧
    (real_dlsym libc_only true 0 () 7 "glClear").dlsym = 4096 ∧
    (real_dlsym libc_only true 0 () 7 "glClear").value = some 4103 ∧
    (libc_only.call () 4096 7 "glClear").1 = 4103 ∧
    ((real_dlsym libc_only true 0 () 7 "glClear").dlsym ≠ 0 ∧
      (∃ v, invocations (real_dlsym libc_only true 0 () 7 "glClear").events =
          [((real_dlsym libc_only true 0 () 7 "glClear").dlsym, 7, "glClear", v)] ∧
        (real_dlsym libc_only true 0 () 7 "glClear").value = some v) ∧
      (((0 : Ptr) ≠ 0 ∧ (real_dlsym libc_only true 0 () 7 "glClear").dlsym = 0 ∧
          located (real_dlsym libc_only true 0 () 7 "glClear").events = []) ∨
        ((0 : Ptr) = 0 ∧
          (∃ p obj, (attempts (real_dlsym libc_only true 0 () 7 "glClear").events).getLast? =
            some ⟨p, 0, obj, some (real_dlsym libc_only true 0 () 7 "glClear").dlsym⟩) ∧
          ∃ p ∈ libs true, ∃ w0, (libc_only.eh_find_obj w0 p).1 = 0 ∧
            (real_dlsym libc_only true 0 () 7 "glClear").dlsym =
              (libc_only.eh_find_sym (libc_only.eh_find_obj w0 p).2.2
                (libc_only.eh_find_obj w0 p).2.1 "dlsym" 0).2.1)) ∧
      invocations (real_dlsym libc_only true 0 () 7 "glClear").events =
        [((real_dlsym libc_only true 0 () 7 "glClear").dlsym, 7, "glClear",
          (libc_only.call (if (0 : Ptr) = 0 then (get_dlsym libc_only true 0 ()).world else ())
            (real_dlsym libc_only true 0 () 7 "glClear").dlsym 7 "glClear").1)] ∧
      (real_dlsym libc_only true 0 () 7 "glClear").events.getLast? =
        some (Event.invoke (real_dlsym libc_only true 0 () 7 "glClear").dlsym 7 "glClear"
          (libc_only.call (if (0 : Ptr) = 0 then (get_dlsym libc_only true 0 ()).world else ())
            (real_dlsym libc_only true 0 () 7 "glClear").dlsym 7 "glClear").1) ∧
      (real_dlsym libc_only true 0 () 7 "glClear").value =
        some (libc_only.call
          (if (0 : Ptr) = 0 then (get_dlsym libc_only true 0 ()).world else ())
          (real_dlsym libc_only true 0 () 7 "glClear").dlsym 7 "glClear").1 ∧
      (real_dlsym libc_only true 0 () 7 "glClear").world =
        (libc_only.call (if (0 : Ptr) = 0 then (get_dlsym libc_only true 0 ()).world else ())
          (real_dlsym libc_only true 0 () 7 "glClear").dlsym 7 "glClear").2) :=
  ⟨by simp [real_dlsym, get_dlsym, get_dlsym_loop, libs, libc_only],
   by simp [real_dlsym, get_dlsym, get_dlsym_loop, libs, libc_only],
   by simp [real_dlsym, get_dlsym, get_dlsym_loop, libs, libc_only],
   by simp [libc_only],
   (real_dlsym_forwards libc_only true 0 () 7 "glClear").1
     (by simp [real_dlsym, get_dlsym, get_dlsym_loop, libs, libc_only])⟩

/-- C5. Release exactly once per successful locate: in every run of `get_dlsym`, whatever the
cache held and whether it returns or terminates the process, each `eh_find_obj` call that
returned 0 is followed at once by exactly one `eh_find_sym` call and then exactly one
`eh_destroy_obj` call on the handle it left, no `eh_find_sym` or `eh_destroy_obj` call is made
after a failed `eh_find_obj` or after the release, and the numbers of resolves and of releases
both equal the number of successful locates. -/
theorem get_dlsym_releases_once {W : Type} (e : Env W) (glibc : Bool) (d : Ptr) (w : W) :
    discipline Phase.idle (get_dlsym e glibc d w).events = true ∧
    (get_dlsym e glibc d w).events.countP is_resolve =
      (get_dlsym e glibc d w).events.countP is_successful_locate ∧
    (get_dlsym e glibc d w).events.countP is_release =
      (get_dlsym e glibc d w).events.countP is_successful_locate := by
  have hc := counts_loop e (libs glibc) d 0 w
  unfold get_dlsym
  simp only []
  split
  · refine ⟨?_, ?_, ?_⟩
    · rw [discipline_append_diag]; exact discipline_loop e _ d 0 w
    · simp [List.countP_append, List.countP_cons, is_resolve, is_successful_locate, hc.1]
    · simp [List.countP_append, List.countP_cons, is_release, is_successful_locate, hc.2]
  · exact ⟨discipline_loop e _ d 0 w, hc.1, hc.2⟩

/-- C4, counterexample: on a glibc process where every `eh_find_obj` call returns 256 every
candidate fails, the diagnostic line is written and `exit(256)` is called, and the exit status
of the process is 0. -/
theorem get_dlsym_exit_status_zero :
    (get_dlsym (nothing_loaded 256) true 0 ()).events =
      [Event.find_obj "*libdl.so*" 256 default, Event.find_obj "*libc.so*" 256 default,
       Event.find_obj "*libc.*.so*" 256 default,
       Event.stderr "~~ Error : dlsym was not found ~~\n", Event.exit 256] ∧
    (get_dlsym (nothing_loaded 256) true 0 ()).exit = some 256 ∧
    (diagnostics (get_dlsym (nothing_loaded 256) true 0 ())).2 = some 0 := by
  simp [get_dlsym, get_dlsym_loop, libs, nothing_loaded, diagnostic, exit_arg, diagnostics,
    exit_status]

/-- C4, amended. Bootstrap failure is reported with a diagnostic and a non-zero argument of
`exit`: in every run of `get_dlsym` from an empty cache in which every candidate pattern fails,
with `c` the return code of the last `eh_find_obj` call, the run ends with the diagnostic line
written to the standard error stream (the only text written there) followed by
`exit(c ? c : 1)`, whose argument is non-zero; the exit status, the low eight bits of that
argument, is zero exactly when `c` is a non-zero multiple of 256, so it is non-zero for every
code from 1 to 255 and when the last failure was a failed resolve (`c = 0`, status 1). -/
theorem get_dlsym_failure_report {W : Type} (e : Env W) (glibc : Bool) (w : W) (c : Int)
    (hall : located (get_dlsym e glibc 0 w).events = libs glibc ∧
      ∀ a ∈ attempts (get_dlsym e glibc 0 w).events, a.failed)
    (hc : (locate_rets (get_dlsym e glibc 0 w).events).getLast? = some c) :
    (∃ pre, (get_dlsym e glibc 0 w).events =
        pre ++ [Event.stderr diagnostic, Event.exit (exit_arg c)] ∧ stderr_text pre = [] ∧
        ∀ x, Event.exit x ∉ pre) ∧
    (get_dlsym e glibc 0 w).exit = some (exit_arg c) ∧
    exit_arg c ≠ 0 ∧
    ((diagnostics (get_dlsym e glibc 0 w)).2 = some 0 ↔ (c ≠ 0 ∧ c % 256 = 0)) ∧
    (c = 0 → (diagnostics (get_dlsym e glibc 0 w)).2 = some 1) := by
  have hx := (exit_iff_all_failed e glibc w).2 hall
  obtain ⟨hev, hexit, _, hne⟩ := get_dlsym_of_exits e glibc 0 w c hx hc
  refine ⟨⟨_, hev, stderr_text_loop e _ 0 0 w, no_exit_loop e _ 0 0 w⟩, hexit, hne, ?_, ?_⟩
  · simp only [diagnostics, hexit, Option.map_some', Option.some.injEq]
    exact exit_status_exit_arg_eq_zero c
  · intro h0
    subst h0
    simp [diagnostics, hexit, exit_arg, exit_status]

/-- Witness of C4 (amended): a glibc process where every locate fails with code 2. -/
theorem get_dlsym_failure_report_witness :
    (located (get_dlsym (nothing_loaded 2) true 0 ()).events = libs true ∧
      ∀ a ∈ attempts (get_dlsym (nothing_loaded 2) true 0 ()).events, a.failed) ∧
    (locate_rets (get_dlsym (nothing_loaded 2) true 0 ()).events).getLast? = some 2 ∧
    ((∃ pre, (get_dlsym (nothing_loaded 2) true 0 ()).events =
        pre ++ [Event.stderr diagnostic, Event.exit (exit_arg 2)] ∧ stderr_text pre = [] ∧
        ∀ x, Event.exit x ∉ pre) ∧
    (get_dlsym (nothing_loaded 2) true 0 ()).exit = some (exit_arg 2) ∧
    exit_arg 2 ≠ 0 ∧
    ((diagnostics (get_dlsym (nothing_loaded 2) true 0 ())).2 = some 0 ↔
      ((2 : Int) ≠ 0 ∧ (2 : Int) % 256 = 0)) ∧
    ((2 : Int) = 0 → (diagnostics (get_dlsym (nothing_loaded 2) true 0 ())).2 = some 1)) :=
  ⟨by simp [get_dlsym, get_dlsym_loop, libs, nothing_loaded, located, attempts, Attempt.failed],
   by simp [get_dlsym, get_dlsym_loop, libs, nothing_loaded, locate_rets],
   get_dlsym_failure_report (nothing_loaded 2) true () 2
     (by simp [get_dlsym, get_dlsym_loop, libs, nothing_loaded, located, attempts,
       Attempt.failed])
     (by simp [get_dlsym, get_dlsym_loop, libs, nothing_loaded, locate_rets])⟩

/-- C8. Failure kinds are equivalent for control flow: two runs of `get_dlsym` from an empty
cache that agree on which `eh_find_obj` calls return 0 and on the address each `eh_find_sym`
call leaves, whatever the non-zero codes of the failing `eh_find_obj` calls and the return
codes of `eh_find_sym`, try the same patterns, make the same sequence of locate, resolve and
release calls, both terminate the process or both return, and end with the same cached address;
and in any run a failed candidate is followed by an `eh_find_obj` call on the next pattern of
`libs`, when there is one. -/
theorem get_dlsym_failure_kinds_equivalent {W1 W2 : Type} (e1 : Env W1) (e2 : Env W2)
    (glibc : Bool) (w1 : W1) (w2 : W2)
    (hobj : agree (locate_ok (get_dlsym e1 glibc 0 w1).events)
      (locate_ok (get_dlsym e2 glibc 0 w2).events))
    (hsym : agree (addresses (get_dlsym e1 glibc 0 w1).events)
      (addresses (get_dlsym e2 glibc 0 w2).events)) :
    located (get_dlsym e1 glibc 0 w1).events = located (get_dlsym e2 glibc 0 w2).events ∧
    calls (get_dlsym e1 glibc 0 w1).events = calls (get_dlsym e2 glibc 0 w2).events ∧
    ((get_dlsym e1 glibc 0 w1).exit = none ↔ (get_dlsym e2 glibc 0 w2).exit = none) ∧
    (get_dlsym e1 glibc 0 w1).dlsym = (get_dlsym e2 glibc 0 w2).dlsym ∧
    (∀ i a, (attempts (get_dlsym e1 glibc 0 w1).events)[i]? = some a → a.failed →
      (located (get_dlsym e1 glibc 0 w1).events)[i + 1]? = (libs glibc)[i + 1]?) ∧
    (∀ i a, (attempts (get_dlsym e2 glibc 0 w2).events)[i]? = some a → a.failed →
      (located (get_dlsym e2 glibc 0 w2).events)[i + 1]? = (libs glibc)[i + 1]?) := by
  obtain ⟨hc1, ho1, ha1⟩ := views_get_dlsym e1 glibc 0 w1
  obtain ⟨hc2, ho2, ha2⟩ := views_get_dlsym e2 glibc 0 w2
  rw [ho1, ho2] at hobj
  rw [ha1, ha2] at hsym
  obtain ⟨hcalls, hd⟩ := loop_agree e1 e2 (libs glibc) 0 0 w1 w2 hobj hsym
  refine ⟨?_, ?_, ?_, ?_, ?_, ?_⟩
  · rw [located_eq_calls, located_eq_calls, hc1, hc2, hcalls]
  · rw [hc1, hc2, hcalls]
  · rw [get_dlsym_exit_none_iff, get_dlsym_exit_none_iff, get_dlsym_dlsym, get_dlsym_dlsym, hd]
  · rw [get_dlsym_dlsym, get_dlsym_dlsym, hd]
  · exact fun i a hi hf => failed_attempt_continues e1 glibc w1 i a hi hf
  · exact fun i a hi hf => failed_attempt_continues e2 glibc w2 i a hi hf

/-- Witness of C8: two runs on a glibc process where libc is loaded without `dlsym`, one
reporting every failure with code 2, the other reporting failed locates with 5 and failed
resolves with 22. -/
theorem get_dlsym_failure_kinds_equivalent_witness :
    locate_rets (get_dlsym (no_dlsym 2 2) true 0 ()).events = [2, 0, 2] ∧
    locate_rets (get_dlsym (no_dlsym 5 22) true 0 ()).events = [5, 0, 5] ∧
    agree (locate_ok (get_dlsym (no_dlsym 2 2) true 0 ()).events)
      (locate_ok (get_dlsym (no_dlsym 5 22) true 0 ()).events) ∧
    agree (addresses (get_dlsym (no_dlsym 2 2) true 0 ()).events)
      (addresses (get_dlsym (no_dlsym 5 22) true 0 ()).events) ∧
    (located (get_dlsym (no_dlsym 2 2) true 0 ()).events =
      located (get_dlsym (no_dlsym 5 22) true 0 ()).events ∧
    calls (get_dlsym (no_dlsym 2 2) true 0 ()).events =
      calls (get_dlsym (no_dlsym 5 22) true 0 ()).events ∧
    ((get_dlsym (no_dlsym 2 2) true 0 ()).exit = none ↔
      (get_dlsym (no_dlsym 5 22) true 0 ()).exit = none) ∧
    (get_dlsym (no_dlsym 2 2) true 0 ()).dlsym = (get_dlsym (no_dlsym 5 22) true 0 ()).dlsym ∧
    (∀ i a, (attempts (get_dlsym (no_dlsym 2 2) true 0 ()).events)[i]? = some a → a.failed →
      (located (get_dlsym (no_dlsym 2 2) true 0 ()).events)[i + 1]? = (libs true)[i + 1]?) ∧
    (∀ i a, (attempts (get_dlsym (no_dlsym 5 22) true 0 ()).events)[i]? = some a → a.failed →
      (located (get_dlsym (no_dlsym 5 22) true 0 ()).events)[i + 1]? = (libs true)[i + 1]?)) := by
  have ho1 : locate_ok (get_dlsym (no_dlsym 2 2) true 0 ()).events = [false, true, false] := by
    simp [get_dlsym, get_dlsym_loop, libs, no_dlsym, locate_ok]
  have ho2 : locate_ok (get_dlsym (no_dlsym 5 22) true 0 ()).events = [false, true, false] := by
    simp [get_dlsym, get_dlsym_loop, libs, no_dlsym, locate_ok]
  have ha1 : addresses (get_dlsym (no_dlsym 2 2) true 0 ()).events = [0] := by
    simp [get_dlsym, get_dlsym_loop, libs, no_dlsym, addresses]
  have ha2 : addresses (get_dlsym (no_dlsym 5 22) true 0 ()).events = [0] := by
    simp [get_dlsym, get_dlsym_loop, libs, no_dlsym, addresses]
  have hobj : agree (locate_ok (get_dlsym (no_dlsym 2 2) true 0 ()).events)
      (locate_ok (get_dlsym (no_dlsym 5 22) true 0 ()).events) := by
    rw [ho1, ho2]; exact agree_refl _
  have hsym : agree (addresses (get_dlsym (no_dlsym 2 2) true 0 ()).events)
      (addresses (get_dlsym (no_dlsym 5 22) true 0 ()).events) := by
    rw [ha1, ha2]; exact agree_refl _
  exact ⟨by simp [get_dlsym, get_dlsym_loop, libs, no_dlsym, locate_rets],
    by simp [get_dlsym, get_dlsym_loop, libs, no_dlsym, locate_rets], hobj, hsym,
    get_dlsym_failure_kinds_equivalent (no_dlsym 2 2) (no_dlsym 5 22) true () () hobj hsym⟩

/-- C9, counterexample: two runs that both end in bootstrap failure and differ only in the
return code of the one `eh_find_sym` call (2 in the first, 22 in the second) write the same
text to the standard error stream and exit with the same status. -/
theorem get_dlsym_resolve_code_not_reported :
    (get_dlsym (no_dlsym 2 2) true 0 ()).events =
      [Event.find_obj "*libdl.so*" 2 default,
       Event.find_obj "*libc.so*" 0 ⟨1000, 2000, "/usr/lib/libc.so.6"⟩,
       Event.find_sym ⟨1000, 2000, "/usr/lib/libc.so.6"⟩ "dlsym" 2 0,
       Event.destroy_obj ⟨1000, 2000, "/usr/lib/libc.so.6"⟩ 0,
       Event.find_obj "*libc.*.so*" 2 default,
       Event.stderr "~~ Error : dlsym was not found ~~\n", Event.exit 2] ∧
    (get_dlsym (no_dlsym 2 22) true 0 ()).events =
      [Event.find_obj "*libdl.so*" 2 default,
       Event.find_obj "*libc.so*" 0 ⟨1000, 2000, "/usr/lib/libc.so.6"⟩,
       Event.find_sym ⟨1000, 2000, "/usr/lib/libc.so.6"⟩ "dlsym" 22 0,
       Event.destroy_obj ⟨1000, 2000, "/usr/lib/libc.so.6"⟩ 0,
       Event.find_obj "*libc.*.so*" 2 default,
       Event.stderr "~~ Error : dlsym was not found ~~\n", Event.exit 2] ∧
    diagnostics (get_dlsym (no_dlsym 2 2) true 0 ()) =
      diagnostics (get_dlsym (no_dlsym 2 22) true 0 ()) := by
  simp [get_dlsym, get_dlsym_loop, libs, no_dlsym, diagnostic, exit_arg, diagnostics,
    stderr_text]

/-- C9, amended. The diagnostics of a failed bootstrap depend on the return code of the last
`eh_find_obj` call only: in any two runs of `get_dlsym` from an empty cache that end in
bootstrap failure, the text written to the standard error stream is the same single line, each
run calls `exit` with the return code of its last `eh_find_obj` call, or 1 when that code is 0,
and the diagnostics of the two runs are equal exactly when these two values give the same exit
status. The return code of `eh_find_sym` and the codes of earlier `eh_find_obj` calls are not
reported. -/
theorem get_dlsym_diagnostics {W1 W2 : Type} (e1 : Env W1) (e2 : Env W2) (glibc : Bool)
    (w1 : W1) (w2 : W2) (c1 c2 : Int)
    (hx1 : (get_dlsym e1 glibc 0 w1).exit ≠ none)
    (hx2 : (get_dlsym e2 glibc 0 w2).exit ≠ none)
    (hc1 : (locate_rets (get_dlsym e1 glibc 0 w1).events).getLast? = some c1)
    (hc2 : (locate_rets (get_dlsym e2 glibc 0 w2).events).getLast? = some c2) :
    stderr_text (get_dlsym e1 glibc 0 w1).events = [diagnostic] ∧
    stderr_text (get_dlsym e2 glibc 0 w2).events = [diagnostic] ∧
    (get_dlsym e1 glibc 0 w1).exit = some (exit_arg c1) ∧
    (get_dlsym e2 glibc 0 w2).exit = some (exit_arg c2) ∧
    (diagnostics (get_dlsym e1 glibc 0 w1) = diagnostics (get_dlsym e2 glibc 0 w2) ↔
      exit_status (exit_arg c1) = exit_status (exit_arg c2)) := by
  obtain ⟨_, hexit1, htext1, _⟩ := get_dlsym_of_exits e1 glibc 0 w1 c1 hx1 hc1
  obtain ⟨_, hexit2, htext2, _⟩ := get_dlsym_of_exits e2 glibc 0 w2 c2 hx2 hc2
  refine ⟨htext1, htext2, hexit1, hexit2, ?_⟩
  simp [diagnostics, htext1, htext2, hexit1, hexit2]

/-- Witness of C9 (amended): two glibc processes where nothing can be located, one failing
with code 2 and one with code 11. -/
theorem get_dlsym_diagnostics_witness :
    (get_dlsym (nothing_loaded 2) true 0 ()).exit ≠ none ∧
    (get_dlsym (nothing_loaded 11) true 0 ()).exit ≠ none ∧
    (locate_rets (get_dlsym (nothing_loaded 2) true 0 ()).events).getLast? = some 2 ∧
    (locate_rets (get_dlsym (nothing_loaded 11) true 0 ()).events).getLast? = some 11 ∧
    (stderr_text (get_dlsym (nothing_loaded 2) true 0 ()).events = [diagnostic] ∧
    stderr_text (get_dlsym (nothing_loaded 11) true 0 ()).events = [diagnostic] ∧
    (get_dlsym (nothing_loaded 2) true 0 ()).exit = some (exit_arg 2) ∧
    (get_dlsym (nothing_loaded 11) true 0 ()).exit = some (exit_arg 11) ∧
    (diagnostics (get_dlsym (nothing_loaded 2) true 0 ()) =
        diagnostics (get_dlsym (nothing_loaded 11) true 0 ()) ↔
      exit_status (exit_arg 2) = exit_status (exit_arg 11))) :=
  ⟨by simp [get_dlsym, get_dlsym_loop, libs, nothing_loaded],
   by simp [get_dlsym, get_dlsym_loop, libs, nothing_loaded],
   by simp [get_dlsym, get_dlsym_loop, libs, nothing_loaded, locate_rets],
   by simp [get_dlsym, get_dlsym_loop, libs, nothing_loaded, locate_rets],
   get_dlsym_diagnostics (nothing_loaded 2) (nothing_loaded 11) true () () 2 11
     (by simp [get_dlsym, get_dlsym_loop, libs, nothing_loaded])
     (by simp [get_dlsym, get_dlsym_loop, libs, nothing_loaded])
     (by simp [get_dlsym, get_dlsym_loop, libs, nothing_loaded, locate_rets])
     (by simp [get_dlsym, get_dlsym_loop, libs, nothing_loaded, locate_rets])⟩

/-- C10. Malformed metadata is reported, never dereferenced: when, in a run of `get_dlsym`
from an empty cache with the Symbol Resolver of the specification as `eh_find_sym` (in either
convention for the output cell on failure), a located
object has a dynamic symbol table containing an entry with an offset that points outside the
mapped memory, then resolving `dlsym` on it gives the `Corrupt` error, every address read is
mapped (none is read), the `eh_find_sym` call of the run returned the code of `Corrupt` and
left the address null, and `get_dlsym` goes on to call `eh_find_obj` on the next pattern of
`libs`, when there is one. -/
theorem resolve_malformed_is_corrupt {W : Type} (e : Env W) (m : Image)
    (code : ResolveError → Int) (clear : Bool) (glibc : Bool) (w : W) (i : Nat) (a : Attempt)
    (tab : List SymEntry) (en : SymEntry)
    (hi : (attempts (get_dlsym (with_resolver e m code clear) glibc 0 w).events)[i]? = some a)
    (hloc : a.ret = 0)
    (htab : m.symtab a.obj.dynamic_section_pointer = some tab)
    (hen : en ∈ tab) (hbad : well_formed m a.obj en = false) :
    (resolve m a.obj "dlsym").result = Except.error ResolveError.Corrupt ∧
    (∀ x ∈ (resolve m a.obj "dlsym").reads, m.mapped x = true) ∧
    (resolve m a.obj "dlsym").reads = [] ∧
    Event.find_sym a.obj "dlsym" (code ResolveError.Corrupt) 0 ∈
      (get_dlsym (with_resolver e m code clear) glibc 0 w).events ∧
    a.addr = some 0 ∧
    (located (get_dlsym (with_resolver e m code clear) glibc 0 w).events)[i + 1]? =
      (libs glibc)[i + 1]? := by
  have hres := resolve_malformed m a.obj "dlsym" tab en htab hen hbad
  have hmem : a ∈ attempts (get_dlsym_loop (with_resolver e m code clear) (libs glibc) 0 0 w).events := by
    rw [← attempts_get_dlsym]; exact List.getElem?_mem hi
  obtain ⟨haddr, hev⟩ := loop_with_resolver e m code clear (libs glibc) 0 w a hmem hloc
  have hfs : resolver_find_sym m code clear () a.obj "dlsym" 0 = (code ResolveError.Corrupt, 0, ()) := by
    unfold resolver_find_sym
    rw [hres]
    simp
  rw [hfs] at haddr hev
  refine ⟨by rw [hres], resolve_reads_mapped m a.obj "dlsym", by rw [hres],
    mem_get_dlsym_of_mem_loop _ glibc 0 w _ hev, haddr, ?_⟩
  exact failed_attempt_continues _ glibc w i a hi (Or.inr haddr)

/-- Witness of C10: libc is located on a glibc build and its symbol table has one entry whose
name offset points beyond the mapping. -/
theorem resolve_malformed_is_corrupt_witness :
    (attempts (get_dlsym (with_resolver libc_only malformed_image example_code false) true 0 ()).events)[1]?
      = some ⟨"*libc.so*", 0, ⟨1000, 2000, "/usr/lib/libc.so.6"⟩, some 0⟩ ∧
    malformed_image.symtab 2000 = some [⟨9000, 64, false⟩] ∧
    well_formed malformed_image ⟨1000, 2000, "/usr/lib/libc.so.6"⟩ ⟨9000, 64, false⟩ = false ∧
    ((resolve malformed_image ⟨1000, 2000, "/usr/lib/libc.so.6"⟩ "dlsym").result =
      Except.error ResolveError.Corrupt ∧
    (∀ x ∈ (resolve malformed_image ⟨1000, 2000, "/usr/lib/libc.so.6"⟩ "dlsym").reads,
      malformed_image.mapped x = true) ∧
    (resolve malformed_image ⟨1000, 2000, "/usr/lib/libc.so.6"⟩ "dlsym").reads = [] ∧
    Event.find_sym ⟨1000, 2000, "/usr/lib/libc.so.6"⟩ "dlsym" (example_code ResolveError.Corrupt) 0 ∈
      (get_dlsym (with_resolver libc_only malformed_image example_code false) true 0 ()).events ∧
    (some 0 : Option Ptr) = some 0 ∧
    (located (get_dlsym (with_resolver libc_only malformed_image example_code false) true 0 ()).events)[1 + 1]? =
      (libs true)[1 + 1]?) :=
  ⟨by simp [get_dlsym, get_dlsym_loop, libs, libc_only, with_resolver, resolver_find_sym, resolve,
      malformed_image, well_formed, name_address, attempts, resolved_addr],
   by simp [malformed_image],
   by simp [malformed_image, well_formed, name_address],
   resolve_malformed_is_corrupt libc_only malformed_image example_code false true () 1
     ⟨"*libc.so*", 0, ⟨1000, 2000, "/usr/lib/libc.so.6"⟩, some 0⟩ [⟨9000, 64, false⟩]
     ⟨9000, 64, false⟩
     (by simp [get_dlsym, get_dlsym_loop, libs, libc_only, with_resolver, resolver_find_sym,
       resolve, malformed_image, well_formed, name_address, attempts, resolved_addr])
     rfl (by simp [malformed_image]) (by simp)
     (by simp [malformed_image, well_formed, name_address])⟩

end RealDlsym
